import Mathlib

/-!
Verification of the fencing daemon core (fenced): a shallow embedding of
`src/fenced/fence.py`, `src/fenced/disks.py` and `src/fenced/main.py`,
with theorems settling the frozen claims about the reservation state
machine, the key-rotation loop and the init-phase failure arithmetic.

Python integers are embedded as `Nat` (all quantities involved are
non-negative); `x >> 32` becomes `x / 2^32`, `x & 0xffffffff` becomes
`x % 2^32`, and `hostid << 32 | low` (with `low < 2^32`) becomes
`hostid * 2^32 + low`.  Fallible calls into the PR transport are embedded
as `Except`-valued oracle fields: one oracle value fixes the outcome of
each transport verb for one invocation, so quantifying over oracles
quantifies over the behaviours of the out-of-scope transport.  Python
sets are embedded as duplicate-free lists; the arbitrary iteration order
of a Python `set` is refined to the list order (the spec leaves the
selection order unspecified).
-/

namespace Fenced

/-! ## Reservation-key arithmetic

`Disk.register_key` / `Disk.reset_keys` (src/fenced/disks.py:135-138 and
:140-172) both derive the written 64-bit key from the counter as
`self.fence.hostid << 32 | (newkey & 0xffffffff)`. -/

/-- The 64-bit reservation key written for counter `c`:
`hostid << 32 | (c & 0xffffffff)` (src/fenced/disks.py:136/:142). -/
def mkKey (hostid c : Nat) : Nat := hostid * 2 ^ 32 + c % 2 ^ 32

/-- The counter bits that actually reach the disk for key `k`. -/
def counterBits (k : Nat) : Nat := k % 2 ^ 32

/-- The per-tick key update at the top of `Fence.loop`
(src/fenced/fence.py:185-188):
`if key > 0xffffffff: key = 2 else: key += 1`. -/
def nextKey (key : Nat) : Nat := if key > 0xffffffff then 2 else key + 1

/-- The key variable after `t` ticks of `Fence.loop`, starting from the
seed `init` returned (src/fenced/fence.py:153: `int(time.time()) & 0xffffffff`). -/
def nextKeyIter : Nat → Nat → Nat
  | 0, s => s
  | t + 1, s => nextKey (nextKeyIter t s)

/-! ## Exit codes

`ExitCode` as `src/fenced/fence.py:17-24` declares it.  Note the source
enum has six members; it declares no `NO_PANIC` member. -/

/-- The members of the `ExitCode` enum (src/fenced/fence.py:17-24). -/
inductive ExitCode where
  | REGISTER_ERROR
  | REMOTE_RUNNING
  | RESERVE_ERROR
  | EXCLUDE_DISKS_ERROR
  | UNKNOWN
  | ALREADY_RUNNING
deriving DecidableEq

/-- The numeric value of each member (src/fenced/fence.py:18-23). -/
def ExitCode.val : ExitCode → Nat
  | .REGISTER_ERROR => 1
  | .REMOTE_RUNNING => 2
  | .RESERVE_ERROR => 3
  | .EXCLUDE_DISKS_ERROR => 4
  | .UNKNOWN => 5
  | .ALREADY_RUNNING => 6

/-- Attribute lookup on the `ExitCode` enum: `ExitCode.<name>` yields the
member when `fence.py:17-24` declares one of that name, and raises
`AttributeError` (here: `none`) otherwise. -/
def exitCodeLookup : String → Option ExitCode
  | "REGISTER_ERROR" => some .REGISTER_ERROR
  | "REMOTE_RUNNING" => some .REMOTE_RUNNING
  | "RESERVE_ERROR" => some .RESERVE_ERROR
  | "EXCLUDE_DISKS_ERROR" => some .EXCLUDE_DISKS_ERROR
  | "UNKNOWN" => some .UNKNOWN
  | "ALREADY_RUNNING" => some .ALREADY_RUNNING
  | _ => none

/-- The `main` function's `except PanicExit` handler (src/fenced/main.py:171-177): with
`--no-panic` it evaluates `ExitCode.NO_PANIC.value` and calls `sys.exit`
with it; without the flag it runs `panic(e)` (the sysrq reboot sequence,
no exit code — embedded as `.ok none`).  Since `exitCodeLookup "NO_PANIC"`
is `none` (fence.py declares no such member), the attribute access raises,
embedded as `.error "AttributeError"`. -/
def handlePanicExit (noPanic : Bool) : Except String (Option Nat) :=
  if noPanic then
    match exitCodeLookup "NO_PANIC" with
    | some code => .ok (some code.val)
    | none => .error "AttributeError"
  else
    .ok none

/-! ## Init: remote-keys probe and reservation failure rate

`Fence.init` (src/fenced/fence.py:130-168). -/

/-- The peer-liveness probe (src/fenced/fence.py:139-151): skipped under
`force`; otherwise the second batch of remote keys must be a subset of the
remote keys recorded during enumeration, else
`sys.exit(ExitCode.REMOTE_RUNNING.value)`.  Key sets are embedded as lists
(`issubset` is membership-wise). -/
def initRemotePhase (force : Bool) (remote0 remote1 : List Nat) : Option ExitCode :=
  if force then none
  else if remote1.all (fun k => decide (k ∈ remote0)) then none
  else some .REMOTE_RUNNING

/-- The reservation phase after `reset_keys` (src/fenced/fence.py:154-164):
with `nFailed` failed disks out of `nDisks`, compute
`rate = int((nFailed / nDisks) * 100)` and exit `RESERVE_ERROR` when
`rate > 10`; otherwise remove the failed disks.  The Python expression is
float arithmetic; it is embedded as the exact integer truncation
`(100 * nFailed) / nDisks`, the value the source's `int(...)` denotes at
fleet sizes.  `.ok` carries the number of disks left in the set. -/
def initReservePhase (nFailed nDisks : Nat) : Except ExitCode Nat :=
  if nFailed ≠ 0 then
    if (100 * nFailed) / nDisks > 10 then .error .RESERVE_ERROR
    else .ok (nDisks - nFailed)
  else .ok nDisks

/-! ## Init: disk enumeration with the two-try key read

`Fence.load_disks` (src/fenced/fence.py:94-121).  For each non-excluded
disk the source runs `for i in range(2)`, each iteration constructing a
fresh `Disk` (which opens the transport handle, src/fenced/disks.py:113)
and calling `disk.get_keys()`; an exception in the first iteration falls
through to `continue`, one in the second appends the name to
`unsupported`.  There is no `break` on success, and
`self._disks.add(disk)` sits after the loop, outside the `try`.  One
iteration's outcome is embedded as a `KeyAttempt`. -/

/-- Outcome of one iteration of the retry loop for one disk: the `Disk`
constructor raised, or it succeeded and `get_keys` raised, or both
succeeded with `get_keys` returning the given remote keys. -/
inductive KeyAttempt where
  | ctorFail
  | readFail
  | readOK (remote : List Nat)
deriving DecidableEq

/-- Whether the `Disk(...)` construction of this iteration succeeded. -/
def KeyAttempt.ctorOK : KeyAttempt → Bool
  | .ctorFail => false
  | _ => true

/-- Whether the iteration's `get_keys` call returned without raising. -/
def KeyAttempt.readSucceeded : KeyAttempt → Bool
  | .readOK _ => true
  | _ => false

/-- The remote keys the iteration contributed to `remote_keys`. -/
def KeyAttempt.remoteOf : KeyAttempt → List Nat
  | .readOK ks => ks
  | _ => []

/-- What `load_disks` computed for one enumerated, non-excluded disk. -/
structure LoadResult where
  /-- What the Python name `disk` is bound to after the loop: the index of
  the last successfully constructed instance (`none` = never bound). -/
  bound : Option (Fin 2)
  /-- Whether the disk's name was appended to `unsupported`. -/
  unsupported : Bool
  /-- How many times `get_keys` (hence the transport's `read_keys`) was issued. -/
  readsIssued : Nat
  /-- How many of the two `Disk(...)` constructions succeeded. -/
  ctorSuccesses : Nat
  /-- How many `get_keys` calls returned without raising. -/
  readSuccesses : Nat
  /-- The keys accumulated into `remote_keys` for this disk. -/
  remoteKeys : List Nat
deriving DecidableEq

/-- The two iterations of the retry loop for one disk
(src/fenced/fence.py:101-111), laid out literally: iteration `i = 0`
(failure hits `continue`), then iteration `i = 1` (failure appends to
`unsupported`).  Neither iteration is skipped on success — the loop has
no `break`. -/
def loadDiskTries (a0 a1 : KeyAttempt) : LoadResult :=
  let bound0 : Option (Fin 2) := if a0.ctorOK then some 0 else none
  { bound := if a1.ctorOK then some 1 else bound0
    unsupported := !a1.readSucceeded
    readsIssued := (if a0.ctorOK then 1 else 0) + (if a1.ctorOK then 1 else 0)
    ctorSuccesses := (if a0.ctorOK then 1 else 0) + (if a1.ctorOK then 1 else 0)
    readSuccesses := (if a0.readSucceeded then 1 else 0) + (if a1.readSucceeded then 1 else 0)
    remoteKeys := a0.remoteOf ++ a1.remoteOf }

/-- The call `self._disks.add(disk)` (src/fenced/fence.py:113) runs unconditionally
after the loop: the disk enters the set whenever the name `disk` is bound
(an unbound name would instead raise `NameError`). -/
def loadDiskAdded (a0 a1 : KeyAttempt) : Bool := (loadDiskTries a0 a1).bound.isSome

/-! ## Steady-state loop: failure handling and the panic condition

`Fence.loop` (src/fenced/fence.py:191-220).  After `register_keys(key)`
returns the failed set, each failed disk is examined: `get_reservation()`
(a transport call that can raise), then — `read_reservation` always
returns a non-empty dict carrying a `reservation` entry that may be
`None` (src/fenced/disks.py:143 indexes it unconditionally), so the
truthiness test `if reservation:` always passes when the call returned —
`reservation['reservation'] >> 32` is compared against the host id.  When
the entry is `None` that shift raises `TypeError`, which the blanket
`except Exception: pass` swallows.  `PanicExit` is re-raised; any other
exception leaves the disk in the failed set, and all disks still failed
at the end are removed from the disk set. -/

/-- The dict `read_reservation` returns: its `reservation` entry is the
holder's 64-bit key or `None` (src/fenced/disks.py:132-133, 143). -/
structure ResvRec where
  reservation : Option Nat
deriving DecidableEq

/-- Truthiness of the record: the dict always carries the `reservation`
key, so it is never empty and `if reservation:` is always true. -/
def resvTruthy (_ : ResvRec) : Bool := true

instance {ε α : Type _} [DecidableEq ε] [DecidableEq α] : DecidableEq (Except ε α) := fun x y =>
  match x, y with
  | .ok a, .ok b => if h : a = b then .isTrue (by rw [h]) else .isFalse (by simp [h])
  | .ok _, .error _ => .isFalse (by simp)
  | .error _, .ok _ => .isFalse (by simp)
  | .error e, .error f => if h : e = f then .isTrue (by rw [h]) else .isFalse (by simp [h])

/-- The transport outcomes relevant to one failed disk in one tick:
whether `get_reservation()` returned (and what), and whether
`reset_keys(key)` would return without raising. -/
structure LoopDiskOracle where
  resv : Except Unit ResvRec
  reset : Except Unit Unit
deriving DecidableEq

/-- What the tick does with one failed disk. -/
inductive DiskFate where
  /-- `raise PanicExit(...)` (src/fenced/fence.py:199-202). -/
  | panics
  /-- reset succeeded; `failed_disks.remove(disk)` keeps it in the set. -/
  | keeps
  /-- an exception was swallowed; the disk stays failed and is removed. -/
  | removes
deriving DecidableEq

/-- Whether the reservation record exists and carries a holder key whose
high 32 bits differ from the host id — the condition under which
src/fenced/fence.py:198-202 raises `PanicExit`. -/
def panicCond (hostid : Nat) (o : LoopDiskOracle) : Bool :=
  match o.resv with
  | .ok r =>
    match r.reservation with
    | some k => decide (hostid ≠ k / 2 ^ 32)
    | none => false
  | .error _ => false

/-- Whether control reaches the `disk.reset_keys(key)` call
(src/fenced/fence.py:208) for this disk: the reservation lookup must
return, and — since the record is truthy — its entry must be a key
(`None >> 32` raises first) whose high 32 bits equal the host id
(otherwise `PanicExit` is raised first). -/
def resetAttempted (hostid : Nat) (o : LoopDiskOracle) : Bool :=
  match o.resv with
  | .error _ => false
  | .ok r =>
    if resvTruthy r then
      match r.reservation with
      | none => false
      | some k => decide (¬hostid ≠ k / 2 ^ 32)
    else
      match o.reset with
      | .ok _ => true
      | .error _ => true

/-- Whether the reservation lookup returned a record carrying a holder
key (`reservation['reservation'] is not None`). -/
def resvHasKey (o : LoopDiskOracle) : Bool :=
  match o.resv with
  | .ok r => r.reservation.isSome
  | .error _ => false

/-- One failed disk's fate in the tick's `for disk in list(failed_disks)`
body (src/fenced/fence.py:193-213), laid out as the source is: lookup,
truthiness test, shift-and-compare (a `None` entry raises `TypeError`),
panic check, reset, with `except PanicExit: raise` and
`except Exception: pass`. -/
def handleDisk (hostid : Nat) (o : LoopDiskOracle) : DiskFate :=
  match o.resv with
  | .error _ => .removes
  | .ok r =>
    if resvTruthy r then
      match r.reservation with
      | none => .removes
      | some k =>
        if hostid ≠ k / 2 ^ 32 then .panics
        else
          match o.reset with
          | .ok _ => .keeps
          | .error _ => .removes
    else
      match o.reset with
      | .ok _ => .keeps
      | .error _ => .removes

/-- The whole failure-handling phase of one tick over the failed disks
(src/fenced/fence.py:192-220): `.error n` when disk `n` raised
`PanicExit` (aborting the iteration), otherwise `.ok` with the names
still failed, i.e. removed from the disk set by the trailing loop. -/
def processFailed (hostid : Nat) : List (α × LoopDiskOracle) → Except α (List α)
  | [] => .ok []
  | (n, o) :: rest =>
    match handleDisk hostid o with
    | .panics => .error n
    | .keeps => processFailed hostid rest
    | .removes => (processFailed hostid rest).map (fun l => n :: l)

/-- Whether the tick's failure handling invokes the panic (suicide) path. -/
def tickPanics (hostid : Nat) (l : List (α × LoopDiskOracle)) : Bool :=
  match processFailed hostid l with
  | .error _ => true
  | .ok _ => false

/-! ## `Disk.reset_keys` — the recovery / init path

`src/fenced/disks.py:140-172`.  The transport verbs it can issue are
recorded in a trace so that order and choice of PR commands can be
stated.  `preempt_key` can fail with a `SCSIErrorException` carrying
`args` (the source tests `e.args and e.args[0] == SCSI_OPCODES.RESERVATION_CONFLICT`)
or with any other exception, which propagates. -/

/-- The SCSI status codes the source compares against; everything else is
`other`. -/
inductive ScsiCode where
  | reservationConflict
  | other (n : Nat)
deriving DecidableEq

/-- A PR-transport verb as issued by `reset_keys`, with its arguments. -/
inductive PrVerb where
  | readReservation
  | readKeys
  | registerIgnore (k : Nat)
  | registerNewKey (k : Nat)
  | preemptKey (victim k : Nat)
  | updateKey (old k : Nat)
  | reserveKey (k : Nat)
deriving DecidableEq

/-- How a `preempt_key` call can fail: a `SCSIErrorException` with the
given `args`, or any other exception (which `reset_keys` re-raises by not
catching it). -/
inductive PreemptErr where
  | scsiError (args : List ScsiCode)
  | otherError
deriving DecidableEq

/-- One invocation's transport outcomes for `reset_keys`: each field fixes
what the corresponding verb would do if issued. -/
structure ResetOracle where
  readResv : Except Unit ResvRec
  registerIgnore : Except Unit Unit
  preempt : Except PreemptErr Unit
  updateKey : Except Unit Unit
  readKeys : Except Unit (List Nat)
  registerNew : Except Unit Unit
  reserveKey : Except Unit Unit
deriving DecidableEq

/-- The `if`/`elif`/`else` chain of `reset_keys`
(src/fenced/disks.py:141-171), yielding the verbs issued after the
initial `read_reservation` and whether an exception propagates.  Branches
in source order: reservation held by a peer (`register_ignore_key`, then
`preempt_key`, falling back to `reserve_key` exactly when the
`SCSIErrorException` has a first arg equal to `RESERVATION_CONFLICT` —
any other `SCSIErrorException` is swallowed by the `except` clause, which
re-raises nothing); reservation held by us (`update_key`); no reservation
and no keys (`register_new_key` + `reserve_key`); no reservation but keys
present (`register_ignore_key` + `reserve_key`). -/
def resetKeysBody (hostid : Nat) (o : ResetOracle) (k : Nat) (r : ResvRec) :
    List PrVerb × Except Unit Unit :=
  match r.reservation with
  | some held =>
    if hostid ≠ held / 2 ^ 32 then
      match o.registerIgnore with
      | .error _ => ([.registerIgnore k], .error ())
      | .ok _ =>
        match o.preempt with
        | .ok _ => ([.registerIgnore k, .preemptKey held k], .ok ())
        | .error .otherError => ([.registerIgnore k, .preemptKey held k], .error ())
        | .error (.scsiError args) =>
          match args with
          | .reservationConflict :: _ =>
            match o.reserveKey with
            | .ok _ => ([.registerIgnore k, .preemptKey held k, .reserveKey k], .ok ())
            | .error _ => ([.registerIgnore k, .preemptKey held k, .reserveKey k], .error ())
          | _ => ([.registerIgnore k, .preemptKey held k], .ok ())
    else
      match o.updateKey with
      | .ok _ => ([.updateKey held k], .ok ())
      | .error _ => ([.updateKey held k], .error ())
  | none =>
    match o.readKeys with
    | .error _ => ([.readKeys], .error ())
    | .ok keys =>
      if keys.isEmpty then
        match o.registerNew with
        | .error _ => ([.readKeys, .registerNewKey k], .error ())
        | .ok _ =>
          match o.reserveKey with
          | .ok _ => ([.readKeys, .registerNewKey k, .reserveKey k], .ok ())
          | .error _ => ([.readKeys, .registerNewKey k, .reserveKey k], .error ())
      else
        match o.registerIgnore with
        | .error _ => ([.readKeys, .registerIgnore k], .error ())
        | .ok _ =>
          match o.reserveKey with
          | .ok _ => ([.readKeys, .registerIgnore k, .reserveKey k], .ok ())
          | .error _ => ([.readKeys, .registerIgnore k, .reserveKey k], .error ())

/-- Embedding of `Disk.reset_keys(newkey)` (src/fenced/disks.py:140-172): read the
reservation, run the branch chain with
`k = hostid << 32 | (newkey & 0xffffffff)`, and on every path that did
not raise execute `self.curkey = newkey` (line 172) — embedded as the
`.ok` value being the new `curkey`.  Returns the verb trace and the
outcome. -/
def resetKeysRun (hostid : Nat) (o : ResetOracle) (c : Nat) : List PrVerb × Except Unit Nat :=
  match o.readResv with
  | .error _ => ([.readReservation], .error ())
  | .ok r =>
    let k := mkKey hostid c
    let body := resetKeysBody hostid o k r
    (.readReservation :: body.1, body.2.map (fun _ => k))

/-! ## The rotating cap

`Disks._get_set_disks` (src/fenced/disks.py:24-49) with
`SET_DISKS_CAP = 30` (src/fenced/disks.py:7).  The disk set's `values()`
iterates in insertion order (a Python dict); the `set` values
(`self._set_disks`, `newset`) are embedded as duplicate-free lists, with
`list(s)[:n]` refined to `take n` of the list (the spec declares the
selection order unspecified). -/

/-- The cap `SET_DISKS_CAP` (src/fenced/disks.py:7). -/
def SET_DISKS_CAP : Nat := 30

/-- Embedding of `_get_set_disks` (src/fenced/disks.py:24-49): returns the subset to
register this round and the new `_set_disks` rotation state.  With at
most `SET_DISKS_CAP` disks the whole set is returned and the state
untouched; otherwise `newset = set(values) - set_disks` is computed, and
(a) if it exceeds the cap, a cap-sized slice of it is returned and merged
into the state, (b) if it is non-empty but within the cap, it is topped
up from `values[:CAP - len(newset)]` and replaces the state, (c) if it is
empty, the state is reset to `values[:CAP]` and returned. -/
def getSetDisks [DecidableEq α] (disks st : List α) : List α × List α :=
  if disks.length ≤ SET_DISKS_CAP then (disks, st)
  else
    let fresh := disks.filter (fun d => decide (d ∉ st))
    if fresh.isEmpty then
      (disks.take SET_DISKS_CAP, disks.take SET_DISKS_CAP)
    else if SET_DISKS_CAP < fresh.length then
      let chosen := fresh.take SET_DISKS_CAP
      (chosen, st ++ chosen.filter (fun d => decide (d ∉ st)))
    else
      let topped := fresh ++ (disks.take (SET_DISKS_CAP - fresh.length)).filter
        (fun d => decide (d ∉ fresh))
      (topped, topped)

/-- The subsets returned by `t` consecutive `register_keys` rounds
(src/fenced/disks.py:99-100 calls `_get_set_disks` once per round) over a
fixed disk set, threading the rotation state. -/
def rotationOutputs [DecidableEq α] (disks : List α) : List α → Nat → List (List α)
  | _, 0 => []
  | st, t + 1 =>
    let pr := getSetDisks disks st
    pr.1 :: rotationOutputs disks pr.2 t

/-! # Theorems -/

/-- Claim C4: The spec's CLI table promises that with `--no-panic` a PANIC
condition exits with code 7 (`NO_PANIC`), and `main`
(src/fenced/main.py:172-175) indeed evaluates `ExitCode.NO_PANIC.value`
in that case — but the `ExitCode` enum of src/fenced/fence.py:17-24
declares no `NO_PANIC` member (and none with value 7), so the attribute
access raises `AttributeError` inside the `except PanicExit` handler and
the process dies with an unhandled exception instead of exiting 7. -/
theorem c4_no_panic_missing :
    handlePanicExit true = .error "AttributeError"
    ∧ exitCodeLookup "NO_PANIC" = none
    ∧ ∀ e : ExitCode, e.val ≠ 7 := by
  refine ⟨rfl, rfl, fun e => ?_⟩
  cases e <;> simp [ExitCode.val]

/-- Claim C7: During init without `force`
(src/fenced/fence.py:139-151), after the wait the controller exits with
`ExitCode.REMOTE_RUNNING` (value 2) exactly when the second batch's
remote-key set is not a subset of the remote keys recorded at
enumeration. -/
theorem c7_remote_running_iff (remote0 remote1 : List Nat) :
    (initRemotePhase false remote0 remote1 = some .REMOTE_RUNNING ↔
      ¬∀ k ∈ remote1, k ∈ remote0)
    ∧ ExitCode.REMOTE_RUNNING.val = 2 := by
  refine ⟨?_, rfl⟩
  simp only [initRemotePhase, Bool.false_eq_true, if_false]
  by_cases h : remote1.all (fun k => decide (k ∈ remote0)) = true
  · simp only [h, if_true]
    simp only [List.all_eq_true, decide_eq_true_eq] at h
    simp only [iff_false_intro (not_not_intro h)]
    simp
  · simp only [h, if_false]
    simp only [List.all_eq_true, decide_eq_true_eq] at h
    simp [h]

/-- Claim C8: During init (src/fenced/fence.py:153-164), after `reset_keys`
the controller exits with `ExitCode.RESERVE_ERROR` (value 3) exactly when
the integer-truncated failure percentage `int((f / n) * 100)` exceeds 10;
at exactly 10% — e.g. 2 failed of 20 — the failed disks are removed and
init continues with the remaining 18. -/
theorem c8_reserve_threshold (nFailed nDisks : Nat) (hn : 0 < nDisks) :
    (initReservePhase nFailed nDisks = .error .RESERVE_ERROR ↔
      10 < (100 * nFailed) / nDisks)
    ∧ ExitCode.RESERVE_ERROR.val = 3
    ∧ initReservePhase 2 20 = .ok 18 := by
  refine ⟨?_, rfl, by decide⟩
  rcases Nat.eq_zero_or_pos nFailed with h0 | hpos
  · subst h0
    simp [initReservePhase]
  · simp only [initReservePhase, Nat.pos_iff_ne_zero.mp hpos, if_true, ne_eq,
      not_false_eq_true]
    by_cases hr : 10 < (100 * nFailed) / nDisks
    · simp [hr]
    · simp [hr]

theorem c8_witness :
    0 < 20
    ∧ ((initReservePhase 3 20 = .error .RESERVE_ERROR ↔ 10 < (100 * 3) / 20)
      ∧ ExitCode.RESERVE_ERROR.val = 3
      ∧ initReservePhase 2 20 = .ok 18) :=
  ⟨by decide, c8_reserve_threshold 3 20 (by decide)⟩

/-- The fate `handleDisk` is `panics` exactly under `panicCond`: the
reservation lookup returned, its record carries a holder key, and the
key's high 32 bits differ from the host id. -/
theorem handleDisk_panics_iff (hostid : Nat) (o : LoopDiskOracle) :
    handleDisk hostid o = .panics ↔ panicCond hostid o = true := by
  rcases o with ⟨resv, reset⟩
  cases resv with
  | error e => simp [handleDisk, panicCond]
  | ok r =>
    rcases r with ⟨resn⟩
    cases resn with
    | none => simp [handleDisk, panicCond, resvTruthy]
    | some k =>
      cases reset with
      | ok u =>
        by_cases h : hostid = k / 2 ^ 32 <;>
          simp [handleDisk, panicCond, resvTruthy, h]
      | error u =>
        by_cases h : hostid = k / 2 ^ 32 <;>
          simp [handleDisk, panicCond, resvTruthy, h]

/-- The failure-handling fold aborts with `PanicExit` exactly when some
failed disk satisfies the panic condition. -/
theorem processFailed_panic_iff {α : Type} (hostid : Nat)
    (l : List (α × LoopDiskOracle)) :
    (∃ e, processFailed hostid l = .error e) ↔
      ∃ p ∈ l, panicCond hostid p.2 = true := by
  induction l with
  | nil => simp [processFailed]
  | cons hd tl ih =>
    obtain ⟨n, o⟩ := hd
    have hcons : (∃ p ∈ (n, o) :: tl, panicCond hostid p.2 = true) ↔
        panicCond hostid o = true ∨ ∃ p ∈ tl, panicCond hostid p.2 = true := by
      simp [List.mem_cons, exists_eq_or_imp]
    rcases hfate : handleDisk hostid o with _ | _ | _
    · have hp := (handleDisk_panics_iff hostid o).mp hfate
      simp only [processFailed, hfate, hcons, hp, true_or, iff_true]
      exact ⟨n, rfl⟩
    · have hnp : panicCond hostid o = false := by
        rcases hc : panicCond hostid o with _ | _
        · rfl
        · exact absurd ((handleDisk_panics_iff hostid o).mpr hc) (by simp [hfate])
      simp only [processFailed, hfate, hcons, hnp, Bool.false_eq_true, false_or]
      exact ih
    · have hnp : panicCond hostid o = false := by
        rcases hc : panicCond hostid o with _ | _
        · rfl
        · exact absurd ((handleDisk_panics_iff hostid o).mpr hc) (by simp [hfate])
      simp only [processFailed, hfate, hcons, hnp, Bool.false_eq_true, false_or]
      rw [← ih]
      rcases processFailed hostid tl with e | r <;> simp [Except.map]

/-- Claim C1: In the steady-state loop's failure handling
(src/fenced/fence.py:191-213), `PanicExit` — the suicide path caught in
src/fenced/main.py:169-177 — is raised if and only if some disk that
failed `register_keys` has `get_reservation()` return a record whose
`reservation` entry is present and has high 32 bits different from the
host id; no other outcome (lookup exception, record without a holder
key, reset success or failure) reaches the `raise`. -/
theorem c1_panic_iff {α : Type} (hostid : Nat) (l : List (α × LoopDiskOracle)) :
    tickPanics hostid l = true ↔ ∃ p ∈ l, panicCond hostid p.2 = true := by
  rw [← processFailed_panic_iff hostid l]
  unfold tickPanics
  rcases processFailed hostid l with e | r <;> simp

/-- Claim C2 counterexample: A disk whose reservation record exists but
carries no holder key (`{'reservation': None}`): the source's
`reservation['reservation'] >> 32` raises `TypeError`, swallowed by
`except Exception: pass`, so `reset_keys` is never attempted — even with
a transport on which it would succeed (`.ok ()`) — no panic occurs, and
the disk is removed from the set.  The claim said such a disk gets a
reset attempt and stays in the set on success. -/
theorem c2_removed_without_reset :
    handleDisk 5 ⟨.ok ⟨none⟩, .ok ()⟩ = .removes
    ∧ resetAttempted 5 ⟨.ok ⟨none⟩, .ok ()⟩ = false
    ∧ panicCond 5 ⟨.ok ⟨none⟩, .ok ()⟩ = false
    ∧ processFailed 5 [((0 : Nat), ⟨.ok ⟨none⟩, .ok ()⟩)] = .ok [0] := by
  refine ⟨rfl, rfl, rfl, rfl⟩

/-- Claim C2 amended: For a disk that failed `register_keys` and does not
meet the panic condition: `reset_keys` is attempted exactly when the
reservation record carries a holder key; when attempted, the disk stays
in the set iff the reset succeeds; when the lookup failed — or the record
exists but carries no holder key — the disk is removed without a reset
attempt; such a disk never panics; and the names removed from the disk
set are exactly the disks whose fate is `removes`
(src/fenced/fence.py:191-220). -/
theorem c2_reset_condition (hostid : Nat) (l : List (Nat × LoopDiskOracle))
    (res : List Nat) (o : LoopDiskOracle)
    (hnp : panicCond hostid o = false)
    (hres : processFailed hostid l = .ok res) :
    (resetAttempted hostid o = true ↔ resvHasKey o = true)
    ∧ (resetAttempted hostid o = true →
        (handleDisk hostid o = .keeps ↔ o.reset = .ok ()))
    ∧ (resetAttempted hostid o = false → handleDisk hostid o = .removes)
    ∧ handleDisk hostid o ≠ .panics
    ∧ res = (l.filter (fun p => handleDisk hostid p.2 == DiskFate.removes)).map Prod.fst := by
  have hmain : (resetAttempted hostid o = true ↔ resvHasKey o = true)
      ∧ (resetAttempted hostid o = true →
          (handleDisk hostid o = .keeps ↔ o.reset = .ok ()))
      ∧ (resetAttempted hostid o = false → handleDisk hostid o = .removes)
      ∧ handleDisk hostid o ≠ .panics := by
    rcases o with ⟨resv, reset⟩
    cases resv with
    | error e =>
      cases reset with
      | ok u => simp [resetAttempted, resvHasKey, handleDisk]
      | error u => simp [resetAttempted, resvHasKey, handleDisk]
    | ok r =>
      rcases r with ⟨resn⟩
      cases resn with
      | none =>
        cases reset with
        | ok u => simp [resetAttempted, resvHasKey, handleDisk, resvTruthy]
        | error u => simp [resetAttempted, resvHasKey, handleDisk, resvTruthy]
      | some k =>
        have heq : hostid = k / 2 ^ 32 := by
          by_contra hne
          simp [panicCond] at hnp
          exact hne hnp
        cases reset with
        | ok u => simp [resetAttempted, resvHasKey, handleDisk, resvTruthy, heq]
        | error u => simp [resetAttempted, resvHasKey, handleDisk, resvTruthy, heq]
  refine ⟨hmain.1, hmain.2.1, hmain.2.2.1, hmain.2.2.2, ?_⟩
  clear hmain hnp
  induction l generalizing res with
  | nil =>
    simp only [processFailed] at hres
    injection hres with h
    subst h
    simp
  | cons hd tl ih =>
    obtain ⟨n, d⟩ := hd
    rcases hfate : handleDisk hostid d with _ | _ | _ <;>
      simp only [processFailed, hfate] at hres
    · cases hres
    · rw [ih _ hres]
      simp [hfate]
    · rcases hrest : processFailed hostid tl with e | res0 <;>
        simp only [hrest, Except.map] at hres
      · cases hres
      · injection hres with h
        subst h
        rw [ih _ hrest]
        simp [hfate]

theorem c2_reset_condition_witness :
    panicCond 5 ⟨.ok ⟨some (5 * 2 ^ 32 + 9)⟩, .ok ()⟩ = false
    ∧ processFailed 5
        [(1, ⟨.ok ⟨some (5 * 2 ^ 32 + 9)⟩, .ok ()⟩), (2, ⟨.error (), .ok ()⟩)] = .ok [2]
    ∧ ((resetAttempted 5 ⟨.ok ⟨some (5 * 2 ^ 32 + 9)⟩, .ok ()⟩ = true ↔
          resvHasKey ⟨.ok ⟨some (5 * 2 ^ 32 + 9)⟩, .ok ()⟩ = true)
      ∧ (resetAttempted 5 ⟨.ok ⟨some (5 * 2 ^ 32 + 9)⟩, .ok ()⟩ = true →
          (handleDisk 5 ⟨.ok ⟨some (5 * 2 ^ 32 + 9)⟩, .ok ()⟩ = .keeps ↔
            (Except.ok () : Except Unit Unit) = .ok ()))
      ∧ (resetAttempted 5 ⟨.ok ⟨some (5 * 2 ^ 32 + 9)⟩, .ok ()⟩ = false →
          handleDisk 5 ⟨.ok ⟨some (5 * 2 ^ 32 + 9)⟩, .ok ()⟩ = .removes)
      ∧ handleDisk 5 ⟨.ok ⟨some (5 * 2 ^ 32 + 9)⟩, .ok ()⟩ ≠ .panics
      ∧ [2] = (([(1, ⟨.ok ⟨some (5 * 2 ^ 32 + 9)⟩, .ok ()⟩), (2, ⟨.error (), .ok ()⟩)] :
            List (Nat × LoopDiskOracle)).filter
              (fun p => handleDisk 5 p.2 == DiskFate.removes)).map Prod.fst) :=
  ⟨by decide, by decide,
    c2_reset_condition 5
      [(1, ⟨.ok ⟨some (5 * 2 ^ 32 + 9)⟩, .ok ()⟩), (2, ⟨.error (), .ok ()⟩)]
      [2] ⟨.ok ⟨some (5 * 2 ^ 32 + 9)⟩, .ok ()⟩ (by decide) (by decide)⟩

/-- Claim C5 counterexample: A disk whose `get_keys` fails on both tries
(both constructions succeed, both reads raise): the name is appended to
`unsupported`, yet `self._disks.add(disk)` — which sits after the retry
loop, outside the `try` (src/fenced/fence.py:113) — still adds the
second instance to the disk set.  The claim said such a disk is
discarded. -/
theorem c5_failed_disk_still_added :
    loadDiskTries .readFail .readFail =
      { bound := some 1, unsupported := true, readsIssued := 2, ctorSuccesses := 2,
        readSuccesses := 0, remoteKeys := [] }
    ∧ loadDiskAdded .readFail .readFail = true := by
  refine ⟨rfl, rfl⟩

/-- Claim C5 amended: During init, every enumerated non-excluded disk
whose `get_keys` fails on both tries is recorded in the `unsupported`
list (used only for a debug log), but it is not discarded: the disk is
still added to the set exactly when at least one of the two `Disk(...)`
constructions succeeded (src/fenced/fence.py:101-113). -/
theorem c5_both_tries_fail (a0 a1 : KeyAttempt)
    (h0 : a0.readSucceeded = false) (h1 : a1.readSucceeded = false) :
    (loadDiskTries a0 a1).unsupported = true
    ∧ (loadDiskTries a0 a1).readSuccesses = 0
    ∧ loadDiskAdded a0 a1 = (a0.ctorOK || a1.ctorOK) := by
  cases a0 <;> cases a1 <;>
    simp_all [loadDiskTries, loadDiskAdded, KeyAttempt.ctorOK, KeyAttempt.readSucceeded]

theorem c5_both_tries_fail_witness :
    KeyAttempt.readSucceeded .readFail = false
    ∧ ((loadDiskTries .readFail .readFail).unsupported = true
      ∧ (loadDiskTries .readFail .readFail).readSuccesses = 0
      ∧ loadDiskAdded .readFail .readFail =
          (KeyAttempt.ctorOK .readFail || KeyAttempt.ctorOK .readFail)) :=
  ⟨by decide, c5_both_tries_fail .readFail .readFail (by decide) (by decide)⟩

/-- Claim C10 counterexample: A disk whose first iteration fully succeeds
but whose second `Disk(...)` construction raises: the retry loop does run
a second iteration, but `read_keys` is issued only once, only one
construction succeeds, and the object placed in the set is the *first*
instance.  The claim said `read_keys` is issued exactly twice and the
second instance is placed. -/
theorem c10_second_ctor_fails :
    (loadDiskTries (.readOK []) .ctorFail).readsIssued = 1
    ∧ (loadDiskTries (.readOK []) .ctorFail).ctorSuccesses = 1
    ∧ (loadDiskTries (.readOK []) .ctorFail).bound = some 0
    ∧ (KeyAttempt.readOK []).readSucceeded = true := by
  refine ⟨rfl, rfl, rfl, rfl⟩

/-- Claim C10 amended: For every non-excluded disk whose first key read
succeeds, the retry loop (having no `break`) still runs a second
iteration and attempts a second construction; whenever that second
construction succeeds, the transport handle is constructed and
`read_keys` issued exactly twice, and the `Disk` object placed in the
set is the second instance (src/fenced/fence.py:101-113). -/
theorem c10_no_break_second_iteration (ks : List Nat) (a1 : KeyAttempt)
    (h : a1.ctorOK = true) :
    (loadDiskTries (.readOK ks) a1).readsIssued = 2
    ∧ (loadDiskTries (.readOK ks) a1).ctorSuccesses = 2
    ∧ (loadDiskTries (.readOK ks) a1).bound = some 1 := by
  cases a1 <;> simp_all [loadDiskTries, KeyAttempt.ctorOK]

theorem c10_no_break_second_iteration_witness :
    KeyAttempt.ctorOK .readFail = true
    ∧ ((loadDiskTries (.readOK [77]) .readFail).readsIssued = 2
      ∧ (loadDiskTries (.readOK [77]) .readFail).ctorSuccesses = 2
      ∧ (loadDiskTries (.readOK [77]) .readFail).bound = some 1) :=
  ⟨by decide, c10_no_break_second_iteration [77] .readFail (by decide)⟩

/-- Claim C3 counterexample: The loop's wrap test runs *before* the
increment (`if key > 0xffffffff: key = 2 else: key += 1`,
src/fenced/fence.py:185-188), so a tick that starts with the counter at
`0xffffffff` increments it to `2^32`, and `register_key` masks that to
counter bits `0` in the key written this tick
(src/fenced/disks.py:136).  Starting from seed `0xfffffffe`, the second
tick — well after the first increment — writes counter bits `0`,
refuting "never 0 after the first increment". -/
theorem c3_zero_written_at_wrap :
    nextKeyIter 1 0xfffffffe = 0xffffffff
    ∧ nextKeyIter 2 0xfffffffe = 2 ^ 32
    ∧ counterBits (mkKey 0xC0FFEE01 (nextKeyIter 2 0xfffffffe)) = 0
    ∧ nextKeyIter 3 0xfffffffe = 2 := by
  refine ⟨rfl, by decide, by decide, by decide⟩

theorem nextKey_le (x : Nat) (hx : x ≤ 2 ^ 32) : nextKey x ≤ 2 ^ 32 := by
  have h32 : (2 : Nat) ^ 32 = 4294967296 := by norm_num
  unfold nextKey
  split <;> omega

theorem nextKey_pos (x : Nat) : 1 ≤ nextKey x := by
  unfold nextKey
  split <;> omega

theorem nextKeyIter_le (s : Nat) (hs : s ≤ 2 ^ 32) (t : Nat) :
    nextKeyIter t s ≤ 2 ^ 32 := by
  induction t with
  | zero => exact hs
  | succ t ih => exact nextKey_le _ ih

theorem nextKeyIter_pos (s t : Nat) (ht : 1 ≤ t) : 1 ≤ nextKeyIter t s := by
  rcases t with _ | t
  · omega
  · exact nextKey_pos _

theorem nextKey_eq_one_iff (x : Nat) : nextKey x = 1 ↔ x = 0 := by
  have h32 : (2 : Nat) ^ 32 = 4294967296 := by norm_num
  unfold nextKey
  split <;> omega

theorem nextKey_eq_pow_iff (x : Nat) (hx : x ≤ 2 ^ 32) :
    nextKey x = 2 ^ 32 ↔ x = 0xffffffff := by
  have h32 : (2 : Nat) ^ 32 = 4294967296 := by norm_num
  unfold nextKey
  split <;> omega

theorem nextKeyIter_eq_zero_iff (s t : Nat) :
    nextKeyIter t s = 0 ↔ t = 0 ∧ s = 0 := by
  cases t with
  | zero => simp [nextKeyIter]
  | succ t =>
    have := nextKey_pos (nextKeyIter t s)
    simp only [nextKeyIter]
    omega

/-- Claim C3 amended: For every seed below `2^32` and every tick `t ≥ 1`:
the counter bits written in tick `t` are the low 32 bits of the key
variable; they equal `1` only in the degenerate first tick after seed
`0`; they equal `0` exactly when the variable holds `2^32` — which
happens exactly in the tick following a tick that started at
`0xffffffff` — and the tick after the wrap uses counter `2`
(src/fenced/fence.py:185-188, src/fenced/disks.py:135-138). -/
theorem c3_counter_bits (h s t : Nat) (hs : s < 2 ^ 32) (ht : 1 ≤ t) :
    counterBits (mkKey h (nextKeyIter t s)) = nextKeyIter t s % 2 ^ 32
    ∧ (nextKeyIter t s % 2 ^ 32 = 1 ↔ t = 1 ∧ s = 0)
    ∧ (nextKeyIter t s % 2 ^ 32 = 0 ↔ nextKeyIter t s = 2 ^ 32)
    ∧ (nextKeyIter t s = 2 ^ 32 ↔ nextKeyIter (t - 1) s = 0xffffffff)
    ∧ nextKey (2 ^ 32) = 2 := by
  have h32 : (2 : Nat) ^ 32 = 4294967296 := by norm_num
  have hub : nextKeyIter t s ≤ 2 ^ 32 := nextKeyIter_le s (le_of_lt hs) t
  have hlb : 1 ≤ nextKeyIter t s := nextKeyIter_pos s t ht
  obtain ⟨t', rfl⟩ : ∃ t', t = t' + 1 := ⟨t - 1, by omega⟩
  refine ⟨?_, ?_, ?_, ?_, by decide⟩
  · simp only [counterBits, mkKey]
    omega
  · have hone : nextKeyIter (t' + 1) s = 1 ↔ t' + 1 = 1 ∧ s = 0 := by
      simp only [nextKeyIter, nextKey_eq_one_iff, nextKeyIter_eq_zero_iff]
      omega
    omega
  · omega
  · have hpow := nextKey_eq_pow_iff (nextKeyIter t' s)
      (nextKeyIter_le s (le_of_lt hs) t')
    simp only [nextKeyIter, Nat.add_sub_cancel]
    omega

theorem c3_counter_bits_witness :
    (0xffffffff : Nat) < 2 ^ 32 ∧ (1 : Nat) ≤ 1
    ∧ (counterBits (mkKey 0xBEEF0000 (nextKeyIter 1 0xffffffff)) =
        nextKeyIter 1 0xffffffff % 2 ^ 32
      ∧ (nextKeyIter 1 0xffffffff % 2 ^ 32 = 1 ↔ 1 = 1 ∧ (0xffffffff : Nat) = 0)
      ∧ (nextKeyIter 1 0xffffffff % 2 ^ 32 = 0 ↔ nextKeyIter 1 0xffffffff = 2 ^ 32)
      ∧ (nextKeyIter 1 0xffffffff = 2 ^ 32 ↔
          nextKeyIter (1 - 1) 0xffffffff = 0xffffffff)
      ∧ nextKey (2 ^ 32) = 2) :=
  ⟨by decide, le_refl 1, c3_counter_bits 0xBEEF0000 0xffffffff 1 (by decide) (le_refl 1)⟩

/-- Every `reset_keys` run that does not raise ends with
`curkey = hostid << 32 | (newkey & 0xffffffff)`
(src/fenced/disks.py:172 runs after the whole branch chain). -/
theorem resetKeysRun_ok_curkey (hostid c : Nat) (o : ResetOracle) :
    (resetKeysRun hostid o c).2.isOk = true →
      (resetKeysRun hostid o c).2 = .ok (mkKey hostid c) := by
  rcases hrr : o.readResv with e | r
  · simp [resetKeysRun, hrr, Except.isOk, Except.toBool]
  · simp only [resetKeysRun, hrr]
    rcases hb : (resetKeysBody hostid o (mkKey hostid c) r).2 with u | u <;>
      simp [Except.map, Except.isOk, Except.toBool]

/-- Claim C6: `Disk.reset_keys` (src/fenced/disks.py:140-172) on a disk
whose reservation is held by a peer — the record carries `held` with
`held >> 32 ≠ hostid` — issues `register_ignore_key(k)` and then
`preempt_key(held, k)` with `k = hostid << 32 | c`; when `preempt_key`
raises a `SCSIErrorException` whose first arg is `RESERVATION_CONFLICT`,
it issues `reserve_key(k)` instead and propagates no error; and every
success path of `reset_keys` (any oracle) ends with `curkey = k`. -/
theorem c6_reset_keys (hostid c held : Nat) (o : ResetOracle)
    (hc : c < 2 ^ 32)
    (hr : o.readResv = .ok ⟨some held⟩)
    (hpeer : hostid ≠ held / 2 ^ 32) :
    mkKey hostid c = hostid * 2 ^ 32 + c
    ∧ (resetKeysRun hostid o c).1.take 2 =
        [.readReservation, .registerIgnore (mkKey hostid c)]
    ∧ (o.registerIgnore = .ok () →
        (resetKeysRun hostid o c).1.take 3 =
          [.readReservation, .registerIgnore (mkKey hostid c),
            .preemptKey held (mkKey hostid c)])
    ∧ (∀ args : List ScsiCode, o.registerIgnore = .ok () →
        o.preempt = .error (.scsiError args) →
        args.head? = some .reservationConflict →
        (resetKeysRun hostid o c).1 =
          [.readReservation, .registerIgnore (mkKey hostid c),
            .preemptKey held (mkKey hostid c), .reserveKey (mkKey hostid c)]
        ∧ (o.reserveKey = .ok () →
            (resetKeysRun hostid o c).2 = .ok (mkKey hostid c)))
    ∧ (∀ o' : ResetOracle, (resetKeysRun hostid o' c).2.isOk = true →
        (resetKeysRun hostid o' c).2 = .ok (mkKey hostid c)) := by
  refine ⟨by simp only [mkKey, Nat.mod_eq_of_lt hc], ?_, ?_, ?_,
    fun o' => resetKeysRun_ok_curkey hostid c o'⟩
  · simp only [resetKeysRun, hr, resetKeysBody, if_pos hpeer]
    rcases o.registerIgnore with u | u
    · rfl
    · rcases hpe : o.preempt with pe | u2
      · rcases pe with args | _
        · rcases args with _ | ⟨a0, rest⟩
          · rfl
          · cases a0
            · rcases o.reserveKey with u3 | u3 <;> rfl
            · rfl
        · rfl
      · rfl
  · intro hri
    simp only [resetKeysRun, hr, resetKeysBody, if_pos hpeer, hri]
    rcases hpe : o.preempt with pe | u2
    · rcases pe with args | _
      · rcases args with _ | ⟨a0, rest⟩
        · rfl
        · cases a0
          · rcases o.reserveKey with u3 | u3 <;> rfl
          · rfl
      · rfl
    · rfl
  · intro args hri hpe hhead
    obtain ⟨rest, rfl⟩ : ∃ rest, args = ScsiCode.reservationConflict :: rest := by
      rcases args with _ | ⟨a0, rest⟩
      · simp at hhead
      · simp only [List.head?, Option.some.injEq] at hhead
        exact ⟨rest, by rw [hhead]⟩
    refine ⟨?_, fun hrv => ?_⟩
    · simp only [resetKeysRun, hr, resetKeysBody, if_pos hpeer, hri, hpe]
      rcases o.reserveKey with u3 | u3 <;> rfl
    · simp only [resetKeysRun, hr, resetKeysBody, if_pos hpeer, hri, hpe, hrv]
      rfl

theorem c6_reset_keys_witness :
    (5 : Nat) < 2 ^ 32
    ∧ (ResetOracle.mk (.ok ⟨some (7 * 2 ^ 32 + 5)⟩) (.ok ())
        (.error (.scsiError [.reservationConflict])) (.ok ()) (.ok []) (.ok ())
        (.ok ())).readResv = .ok ⟨some (7 * 2 ^ 32 + 5)⟩
    ∧ (3 : Nat) ≠ (7 * 2 ^ 32 + 5) / 2 ^ 32
    ∧ (mkKey 3 5 = 3 * 2 ^ 32 + 5
      ∧ (resetKeysRun 3 (ResetOracle.mk (.ok ⟨some (7 * 2 ^ 32 + 5)⟩) (.ok ())
            (.error (.scsiError [.reservationConflict])) (.ok ()) (.ok []) (.ok ())
            (.ok ())) 5).1.take 2 = [.readReservation, .registerIgnore (mkKey 3 5)]
      ∧ ((ResetOracle.mk (.ok ⟨some (7 * 2 ^ 32 + 5)⟩) (.ok ())
            (.error (.scsiError [.reservationConflict])) (.ok ()) (.ok []) (.ok ())
            (.ok ())).registerIgnore = .ok () →
          (resetKeysRun 3 (ResetOracle.mk (.ok ⟨some (7 * 2 ^ 32 + 5)⟩) (.ok ())
            (.error (.scsiError [.reservationConflict])) (.ok ()) (.ok []) (.ok ())
            (.ok ())) 5).1.take 3 =
            [.readReservation, .registerIgnore (mkKey 3 5),
              .preemptKey (7 * 2 ^ 32 + 5) (mkKey 3 5)])
      ∧ (∀ args : List ScsiCode,
          (ResetOracle.mk (.ok ⟨some (7 * 2 ^ 32 + 5)⟩) (.ok ())
            (.error (.scsiError [.reservationConflict])) (.ok ()) (.ok []) (.ok ())
            (.ok ())).registerIgnore = .ok () →
          (ResetOracle.mk (.ok ⟨some (7 * 2 ^ 32 + 5)⟩) (.ok ())
            (.error (.scsiError [.reservationConflict])) (.ok ()) (.ok []) (.ok ())
            (.ok ())).preempt = .error (.scsiError args) →
          args.head? = some .reservationConflict →
          (resetKeysRun 3 (ResetOracle.mk (.ok ⟨some (7 * 2 ^ 32 + 5)⟩) (.ok ())
            (.error (.scsiError [.reservationConflict])) (.ok ()) (.ok []) (.ok ())
            (.ok ())) 5).1 =
            [.readReservation, .registerIgnore (mkKey 3 5),
              .preemptKey (7 * 2 ^ 32 + 5) (mkKey 3 5), .reserveKey (mkKey 3 5)]
          ∧ ((ResetOracle.mk (.ok ⟨some (7 * 2 ^ 32 + 5)⟩) (.ok ())
              (.error (.scsiError [.reservationConflict])) (.ok ()) (.ok []) (.ok ())
              (.ok ())).reserveKey = .ok () →
              (resetKeysRun 3 (ResetOracle.mk (.ok ⟨some (7 * 2 ^ 32 + 5)⟩) (.ok ())
                (.error (.scsiError [.reservationConflict])) (.ok ()) (.ok []) (.ok ())
                (.ok ())) 5).2 = .ok (mkKey 3 5)))
      ∧ (∀ o' : ResetOracle, (resetKeysRun 3 o' 5).2.isOk = true →
          (resetKeysRun 3 o' 5).2 = .ok (mkKey 3 5))) :=
  ⟨by decide, rfl, by decide,
    c6_reset_keys 3 5 (7 * 2 ^ 32 + 5)
      (ResetOracle.mk (.ok ⟨some (7 * 2 ^ 32 + 5)⟩) (.ok ())
        (.error (.scsiError [.reservationConflict])) (.ok ()) (.ok []) (.ok ())
        (.ok ())) (by decide) rfl (by decide)⟩

/-! ### Rotating-cap lemmas -/

theorem filter_not_mem_of_disjoint {α : Type} [DecidableEq α] (t l : List α)
    (hdisj : ∀ a ∈ l, a ∉ t) :
    l.filter (fun d => decide (d ∉ t)) = l :=
  List.filter_eq_self.mpr (fun a ha => by simp [hdisj a ha])

theorem filter_mem_nil {α : Type} [DecidableEq α] (t l : List α)
    (hsub : ∀ a ∈ l, a ∈ t) :
    l.filter (fun d => decide (d ∉ t)) = [] :=
  List.filter_eq_nil_iff.mpr (fun a ha => by simp [hsub a ha])

/-- On a duplicate-free list, removing the first `m` elements by
membership (`set(values) - set(values[:m])`) is `drop m`. -/
theorem filter_not_mem_take {α : Type} [DecidableEq α] (l : List α) (m : Nat)
    (hnd : l.Nodup) :
    l.filter (fun d => decide (d ∉ l.take m)) = l.drop m := by
  have hsplit := List.take_append_drop m l
  calc l.filter (fun d => decide (d ∉ l.take m))
      = (l.take m ++ l.drop m).filter (fun d => decide (d ∉ l.take m)) := by
        rw [hsplit]
    _ = (l.take m).filter (fun d => decide (d ∉ l.take m))
        ++ (l.drop m).filter (fun d => decide (d ∉ l.take m)) :=
        List.filter_append _ _
    _ = [] ++ l.drop m := by
        rw [filter_mem_nil _ _ (fun a ha => ha),
          filter_not_mem_of_disjoint _ _
            (fun a ha hmem => List.disjoint_take_drop hnd (le_refl m) hmem ha)]
    _ = l.drop m := List.nil_append _

theorem getSetDisks_small {α : Type} [DecidableEq α] (disks st : List α)
    (h : disks.length ≤ SET_DISKS_CAP) :
    getSetDisks disks st = (disks, st) := by
  simp [getSetDisks, h]

theorem getSetDisks_reset {α : Type} [DecidableEq α] (disks st : List α)
    (h1 : ¬disks.length ≤ SET_DISKS_CAP)
    (h2 : disks.filter (fun d => decide (d ∉ st)) = []) :
    getSetDisks disks st = (disks.take SET_DISKS_CAP, disks.take SET_DISKS_CAP) := by
  simp only [getSetDisks, h2]
  rw [if_neg h1]
  simp

theorem getSetDisks_big {α : Type} [DecidableEq α] (disks st : List α)
    (h1 : ¬disks.length ≤ SET_DISKS_CAP)
    (h2 : SET_DISKS_CAP < (disks.filter (fun d => decide (d ∉ st))).length) :
    getSetDisks disks st =
      ((disks.filter (fun d => decide (d ∉ st))).take SET_DISKS_CAP,
        st ++ ((disks.filter (fun d => decide (d ∉ st))).take SET_DISKS_CAP).filter
          (fun d => decide (d ∉ st))) := by
  have hne : (disks.filter (fun d => decide (d ∉ st))).isEmpty = false := by
    rcases h : disks.filter (fun d => decide (d ∉ st)) with _ | ⟨a, tl⟩
    · rw [h] at h2; simp at h2
    · simp
  simp only [getSetDisks, hne]
  rw [if_neg h1, if_neg (by simp), if_pos h2]

theorem getSetDisks_mid {α : Type} [DecidableEq α] (disks st : List α)
    (h1 : ¬disks.length ≤ SET_DISKS_CAP)
    (h2 : disks.filter (fun d => decide (d ∉ st)) ≠ [])
    (h3 : ¬SET_DISKS_CAP < (disks.filter (fun d => decide (d ∉ st))).length) :
    getSetDisks disks st =
      (disks.filter (fun d => decide (d ∉ st))
        ++ (disks.take (SET_DISKS_CAP -
              (disks.filter (fun d => decide (d ∉ st))).length)).filter
            (fun d => decide (d ∉ disks.filter (fun x => decide (x ∉ st)))),
       disks.filter (fun d => decide (d ∉ st))
        ++ (disks.take (SET_DISKS_CAP -
              (disks.filter (fun d => decide (d ∉ st))).length)).filter
            (fun d => decide (d ∉ disks.filter (fun x => decide (x ∉ st))))) := by
  have hne : (disks.filter (fun d => decide (d ∉ st))).isEmpty = false := by
    rcases h : disks.filter (fun d => decide (d ∉ st)) with _ | ⟨a, tl⟩
    · exact absurd h h2
    · simp
  simp only [getSetDisks, hne]
  rw [if_neg h1, if_neg (by simp), if_neg h3]

/-- Coverage induction: with more disks than the cap and rotation state
`values[:CAP*j]`, every disk not yet covered is returned by one of the
next `t` rounds, provided `t` rounds suffice to exhaust the remainder. -/
theorem rotation_cover_aux {α : Type} [DecidableEq α] (l : List α) (hnd : l.Nodup)
    (hbig : ¬l.length ≤ SET_DISKS_CAP) :
    ∀ (t j : Nat), l.length ≤ SET_DISKS_CAP * j + SET_DISKS_CAP * t →
      ∀ d ∈ l.drop (SET_DISKS_CAP * j),
        d ∈ (rotationOutputs l (l.take (SET_DISKS_CAP * j)) t).flatten := by
  intro t
  induction t with
  | zero =>
    intro j hle d hd
    have hnil : l.drop (SET_DISKS_CAP * j) = [] :=
      List.drop_eq_nil_of_le (by omega)
    rw [hnil] at hd
    exact absurd hd (List.not_mem_nil d)
  | succ t ih =>
    intro j hle d hd
    have hCAP : SET_DISKS_CAP = 30 := rfl
    have hfreshEq : l.filter (fun x => decide (x ∉ l.take (SET_DISKS_CAP * j))) =
        l.drop (SET_DISKS_CAP * j) := filter_not_mem_take l _ hnd
    by_cases hcap : SET_DISKS_CAP < (l.drop (SET_DISKS_CAP * j)).length
    · -- more fresh disks than the cap: a cap-sized slice is returned and
      -- accumulated into the state
      have hstep := getSetDisks_big l (l.take (SET_DISKS_CAP * j)) hbig
        (by rw [hfreshEq]; exact hcap)
      rw [hfreshEq] at hstep
      have hchosen : ((l.drop (SET_DISKS_CAP * j)).take SET_DISKS_CAP).filter
          (fun x => decide (x ∉ l.take (SET_DISKS_CAP * j))) =
          (l.drop (SET_DISKS_CAP * j)).take SET_DISKS_CAP :=
        filter_not_mem_of_disjoint _ _ (fun a ha hmem =>
          List.disjoint_take_drop hnd (le_refl (SET_DISKS_CAP * j)) hmem
            (List.mem_of_mem_take ha))
      have hstate : l.take (SET_DISKS_CAP * j)
          ++ (l.drop (SET_DISKS_CAP * j)).take SET_DISKS_CAP =
          l.take (SET_DISKS_CAP * (j + 1)) := by
        rw [Nat.mul_succ, List.take_add]
      rw [hchosen, hstate] at hstep
      simp only [rotationOutputs, hstep, List.flatten_cons, List.mem_append]
      have hsplit : l.drop (SET_DISKS_CAP * j) =
          (l.drop (SET_DISKS_CAP * j)).take SET_DISKS_CAP
          ++ l.drop (SET_DISKS_CAP * (j + 1)) := by
        rw [Nat.mul_succ, ← List.drop_drop, List.take_append_drop]
      rw [hsplit] at hd
      rcases List.mem_append.mp hd with h | h
      · exact Or.inl h
      · exact Or.inr (ih (j + 1) (by rw [hCAP] at hle ⊢; omega) d h)
    · -- the remaining fresh disks fit within the cap: all of them are
      -- returned (topped up from the head of the list)
      have hne : l.drop (SET_DISKS_CAP * j) ≠ [] := by
        intro h
        rw [h] at hd
        exact absurd hd (List.not_mem_nil d)
      have hstep := getSetDisks_mid l (l.take (SET_DISKS_CAP * j)) hbig
        (by rw [hfreshEq]; exact hne) (by rw [hfreshEq]; exact hcap)
      rw [hfreshEq] at hstep
      simp only [rotationOutputs, hstep, List.flatten_cons, List.mem_append]
      exact Or.inl (Or.inl hd)

/-- Everything any round returns is a disk of the set (the rotation state
stays within the set as well). -/
theorem rotationOutputs_subset {α : Type} [DecidableEq α] (l : List α) :
    ∀ (t : Nat) (st : List α), (∀ x ∈ st, x ∈ l) →
      ∀ d ∈ (rotationOutputs l st t).flatten, d ∈ l := by
  intro t
  induction t with
  | zero =>
    intro st _ d hd
    simp [rotationOutputs] at hd
  | succ t ih =>
    intro st hst d hd
    have hmem : (∀ x ∈ (getSetDisks l st).1, x ∈ l)
        ∧ ∀ x ∈ (getSetDisks l st).2, x ∈ l := by
      by_cases h1 : l.length ≤ SET_DISKS_CAP
      · rw [getSetDisks_small l st h1]
        exact ⟨fun x hx => hx, hst⟩
      · by_cases h2 : l.filter (fun x => decide (x ∉ st)) = []
        · rw [getSetDisks_reset l st h1 h2]
          exact ⟨fun x hx => List.mem_of_mem_take hx, fun x hx => List.mem_of_mem_take hx⟩
        · by_cases h3 : SET_DISKS_CAP < (l.filter (fun x => decide (x ∉ st))).length
          · rw [getSetDisks_big l st h1 h3]
            constructor
            · intro x hx
              exact List.mem_of_mem_filter (List.mem_of_mem_take hx)
            · intro x hx
              rcases List.mem_append.mp hx with h | h
              · exact hst x h
              · exact List.mem_of_mem_filter (List.mem_of_mem_take (List.mem_of_mem_filter h))
          · rw [getSetDisks_mid l st h1 h2 h3]
            have hin : ∀ x ∈ l.filter (fun x => decide (x ∉ st))
                ++ (l.take (SET_DISKS_CAP -
                      (l.filter (fun x => decide (x ∉ st))).length)).filter
                    (fun d => decide (d ∉ l.filter (fun x => decide (x ∉ st)))),
                x ∈ l := by
              intro x hx
              rcases List.mem_append.mp hx with h | h
              · exact List.mem_of_mem_filter h
              · exact List.mem_of_mem_take (List.mem_of_mem_filter h)
            exact ⟨hin, hin⟩
    simp only [rotationOutputs, List.flatten_cons, List.mem_append] at hd
    rcases hd with h | h
    · exact hmem.1 d h
    · exact ih _ hmem.2 d h

/-- Claim C9: For a fixed duplicate-free disk set with no additions or
removals, starting from an empty rotation state, the union of the
subsets returned by the first `⌈|disks| / SET_DISKS_CAP⌉` consecutive
calls to `_get_set_disks` (src/fenced/disks.py:24-49, cap 30) is exactly
the full disk set — every disk has its key rotated at least once within
that many ticks. -/
theorem c9_rotation_coverage {α : Type} [DecidableEq α] (disks : List α)
    (hnd : disks.Nodup) (d : α) :
    d ∈ (rotationOutputs disks []
        ((disks.length + (SET_DISKS_CAP - 1)) / SET_DISKS_CAP)).flatten
      ↔ d ∈ disks := by
  have hCAP : SET_DISKS_CAP = 30 := rfl
  constructor
  · exact fun h => rotationOutputs_subset disks _ [] (by simp) d h
  · intro hd
    by_cases hsmall : disks.length ≤ SET_DISKS_CAP
    · have hpos : 1 ≤ disks.length := List.length_pos.mpr (by
        intro h
        rw [h] at hd
        exact absurd hd (List.not_mem_nil d))
      have h1 : 1 ≤ (disks.length + (SET_DISKS_CAP - 1)) / SET_DISKS_CAP := by
        rw [Nat.one_le_div_iff (by rw [hCAP]; omega)]
        rw [hCAP] at hsmall ⊢
        omega
      obtain ⟨t', ht'⟩ : ∃ t', (disks.length + (SET_DISKS_CAP - 1)) / SET_DISKS_CAP
          = t' + 1 := ⟨(disks.length + (SET_DISKS_CAP - 1)) / SET_DISKS_CAP - 1,
            by omega⟩
      rw [ht']
      simp only [rotationOutputs, getSetDisks_small disks [] hsmall,
        List.flatten_cons, List.mem_append]
      exact Or.inl hd
    · have hq := Nat.div_add_mod (disks.length + (SET_DISKS_CAP - 1)) SET_DISKS_CAP
      have hmod := Nat.mod_lt (disks.length + (SET_DISKS_CAP - 1))
        (show 0 < SET_DISKS_CAP by rw [hCAP]; omega)
      have hcover := rotation_cover_aux disks hnd hsmall
        ((disks.length + (SET_DISKS_CAP - 1)) / SET_DISKS_CAP) 0
        (by omega) d (by simpa using hd)
      simpa using hcover

theorem c9_rotation_coverage_witness :
    (List.range 90).Nodup
    ∧ (57 ∈ (rotationOutputs (List.range 90) []
        (((List.range 90).length + (SET_DISKS_CAP - 1)) / SET_DISKS_CAP)).flatten
      ↔ 57 ∈ List.range 90) :=
  ⟨List.nodup_range 90, c9_rotation_coverage (List.range 90) (List.nodup_range 90) 57⟩

end Fenced
